import Mathlib

/-!
# Verification of the earth-model repository

Shallow embedding of the two source files of the repository:

* `earth.py` — event timelines and the position-model calculator that maps a
  point in time to the pair (orbit degrees, rotation degrees).  Times and
  degrees are modelled as rationals (the code computes with Julian-day floats
  on a continuous time axis).  The astronomical almanac is an external
  collaborator: the event lists it returns are taken as parameters, ordered
  ascending by timestamp.  Calls that can find no straddling event pair are
  modelled with `Option`.
* `earth_model.py` — the motion controller: calibration (homing) state
  machine, validation, step quantization and the per-sample axis updates.
  The physical axis is modelled by an integer step position; a forward motor
  step increments it, a backward step decrements it.  The hall-effect sensor
  is a boolean function of the position.  `sys.exit(1)` is modelled with
  `Except ℕ`, the error value being the process exit code.  A motor move is
  modelled as the list of single-step commands issued, each carrying its
  direction (`true` = forward).
-/

namespace Earth

/-- Season event codes (earth.py module constants). -/
def EVENT_VERNAL_EQUINOX : ℕ := 0

def EVENT_SUMMER_SOLSTICE : ℕ := 1

def EVENT_AUTUMNAL_EQUINOX : ℕ := 2

def EVENT_WINTER_SOLSTICE : ℕ := 3

/-- earth.py `Event`: an event value paired with a display label string. -/
structure Event (α : Type) where
  value : α
  label : String
deriving DecidableEq

/-- earth.py `EventTime`: an `Event` paired with a timestamp. -/
structure EventTime (α : Type) where
  event : Event α
  time : ℚ
deriving DecidableEq

/-- earth.py `EarthModel`: earth orbit degrees and earth rotation degrees. -/
structure EarthModel where
  orbit_degrees : ℚ
  rotation_degrees : ℚ
deriving DecidableEq

/-- earth.py `noon_nadir_event_times`: for each consecutive pair of rise/set
events, one event at the temporal midpoint, labelled from the first event's
boolean tag (the almanac call `rise_set_event_times` is the external
collaborator, so its result is the parameter `rs`). -/
def noon_nadir_event_times (rs : List (EventTime Bool)) : List (EventTime Bool) :=
  (rs.zip rs.tail).map fun p =>
    { event := { value := p.1.event.value,
                 label := if p.1.event.value then "Solor noon" else "Nadir" },
      time := p.1.time + (p.2.time - p.1.time) / 2 }

/-- earth.py `find_surrounding_events`: scan consecutive pairs, return the
first pair (x, y) with x.time < time < y.time, `none` when there is no such
pair. -/
def find_surrounding_events {α : Type} : List (EventTime α) → ℚ → Option (EventTime α × EventTime α)
  | x :: y :: rest, t =>
    if x.time < t ∧ t < y.time then some (x, y)
    else find_surrounding_events (y :: rest) t
  | _, _ => none

/-- earth.py `position_as_percent`: fractional position of `t` between the
two event timestamps (the pair of events is passed as two arguments). -/
def position_as_percent {α : Type} (x y : EventTime α) (t : ℚ) : ℚ :=
  (t - x.time) / (y.time - x.time)

/-- earth.py `relative_to_absolute_orbit_degrees`: map relative seasonal
degrees to the 0-180-0 scale using the preceding event's season code. -/
def relative_to_absolute_orbit_degrees (season : ℕ) (degrees : ℚ) : ℚ :=
  if season = EVENT_SUMMER_SOLSTICE then 180 - degrees
  else if season = EVENT_AUTUMNAL_EQUINOX then 90 - degrees
  else if season = EVENT_WINTER_SOLSTICE then degrees
  else 90 + degrees

/-- earth.py `orbit_degrees_from_winter_solstice`, with the season event list
returned by the almanac window query as a parameter. -/
def orbit_degrees_from_winter_solstice (seasonEvents : List (EventTime ℕ)) (t : ℚ) : Option ℚ :=
  (find_surrounding_events seasonEvents t).map fun p =>
    relative_to_absolute_orbit_degrees p.1.event.value (position_as_percent p.1 p.2 t * 90)

/-- earth.py `rotation_degrees_from_solar_noon`, with the noon/nadir event
list as a parameter; adds 180 when the preceding event is a nadir. -/
def rotation_degrees_from_solar_noon (noonEvents : List (EventTime Bool)) (t : ℚ) : Option ℚ :=
  (find_surrounding_events noonEvents t).map fun p =>
    let degrees := position_as_percent p.1 p.2 t * 180
    if p.1.event.value then degrees else degrees + 180

/-- earth.py `earth_model`: orbit, then rotation minus orbit normalized by
+360 when negative. -/
def earth_model (seasonEvents : List (EventTime ℕ)) (noonEvents : List (EventTime Bool))
    (t : ℚ) : Option EarthModel :=
  match orbit_degrees_from_winter_solstice seasonEvents t with
  | none => none
  | some orbit =>
    match rotation_degrees_from_solar_noon noonEvents t with
    | none => none
    | some rot =>
      let rot2 := rot - orbit
      some ⟨orbit, if rot2 < 0 then rot2 + 360 else rot2⟩

/-- The value `orbit_degrees_from_winter_solstice` computes on the segment
between two straddling season events at times `t0 < t1`, as a function of
the query time (the body of that function with the straddling pair fixed). -/
def orbitSeg (season : ℕ) (t0 t1 t : ℚ) : ℚ :=
  relative_to_absolute_orbit_degrees season ((t - t0) / (t1 - t0) * 90)

/-- The value `rotation_degrees_from_solar_noon` computes on the segment
between two straddling noon/nadir events at times `t0 < t1`. -/
def rotSeg (tag : Bool) (t0 t1 t : ℚ) : ℚ :=
  if tag then (t - t0) / (t1 - t0) * 180 else (t - t0) / (t1 - t0) * 180 + 180

/-- Concrete sorted 5-event timeline used to exercise
`find_surrounding_events`. -/
def sampleTimeline : List (EventTime ℕ) :=
  [⟨⟨0, "e0"⟩, 0⟩, ⟨⟨1, "e1"⟩, 2⟩, ⟨⟨2, "e2"⟩, 4⟩, ⟨⟨3, "e3"⟩, 6⟩, ⟨⟨4, "e4"⟩, 8⟩]

/-- Concrete season event pair (winter solstice, then vernal equinox). -/
def sampleSeasonEvents : List (EventTime ℕ) :=
  [⟨⟨EVENT_WINTER_SOLSTICE, "Winter Solstice"⟩, 0⟩, ⟨⟨EVENT_VERNAL_EQUINOX, "Vernal Equinox"⟩, 90⟩]

/-- Concrete noon/nadir event pair (solar noon, then nadir). -/
def sampleNoonEvents : List (EventTime Bool) :=
  [⟨⟨true, "Solor noon"⟩, 44⟩, ⟨⟨false, "Nadir"⟩, 46⟩]

/-- Concrete rise/set sequence (sunrise, sunset, sunrise). -/
def sampleRiseSet : List (EventTime Bool) :=
  [⟨⟨true, "Sunrise"⟩, 0⟩, ⟨⟨false, "Sunset"⟩, 10⟩, ⟨⟨true, "Sunrise"⟩, 24⟩]

end Earth

namespace EarthMotion

open Earth

/-- earth_model.py `STEPS_PER_REV`. -/
def STEPS_PER_REV : ℤ := 200

/-- earth_model.py `DEGREES_PER_STEP = 360.0 / STEPS_PER_REV`. -/
def DEGREES_PER_STEP : ℚ := 360 / (STEPS_PER_REV : ℚ)

/-- earth_model.py `take_steps`: the list of single-step commands issued,
each carrying its direction (`true` = forward). -/
def take_steps (forward : Bool) (steps : ℕ) : List Bool :=
  List.replicate steps forward

/-- Position change of one motor step: forward increments, backward
decrements. -/
def stepDir (forward : Bool) : ℤ :=
  if forward then 1 else -1

/-- Position after `take_steps`: `steps` motor steps in one direction. -/
def take_steps_pos (forward : Bool) (pos : ℤ) (steps : ℕ) : ℤ :=
  pos + steps * stepDir forward

/-- earth_model.py `step_while_over_sensor`: step while the sensor senses,
up to `max_steps`; returns (found, steps taken, final position). -/
def step_while_over_sensor (step_forward : Bool) (sensor : ℤ → Bool) (pos : ℤ) :
    ℕ → Bool × ℕ × ℤ
  | 0 => (false, 0, pos)
  | n + 1 =>
    if sensor pos then
      let r := step_while_over_sensor step_forward sensor (pos + stepDir step_forward) n
      (r.1, r.2.1 + 1, r.2.2)
    else (true, 0, pos)

/-- earth_model.py `step_until_over_sensor`: step until the sensor senses,
up to `max_steps`; returns (found, steps taken, final position). -/
def step_until_over_sensor (step_forward : Bool) (sensor : ℤ → Bool) (pos : ℤ) :
    ℕ → Bool × ℕ × ℤ
  | 0 => (false, 0, pos)
  | n + 1 =>
    if sensor pos then (true, 0, pos)
    else
      let r := step_until_over_sensor step_forward sensor (pos + stepDir step_forward) n
      (r.1, r.2.1 + 1, r.2.2)

/-- The calibration phases, in the order the `scan` log records them. -/
inductive Phase where
  | BACK_OFF
  | SEEK
  | CLEAR
  | CENTER
deriving DecidableEq

/-- earth_model.py `scan`: the four-phase homing routine.  Returns the
success flag, the final axis position, and the list of phases entered (the
phases the source logs).  The CENTER phase steps back opposite the scan
direction by `steps / 2` (integer division) of the CLEAR phase's count. -/
def scan (forward : Bool) (sensor : ℤ → Bool) (pos : ℤ)
    (max_scan_steps max_sensor_steps : ℕ) : Bool × ℤ × List Phase :=
  let r1 := step_while_over_sensor (!forward) sensor pos max_sensor_steps
  if !r1.1 then (false, r1.2.2, [Phase.BACK_OFF])
  else
    let r2 := step_until_over_sensor forward sensor r1.2.2 max_scan_steps
    if !r2.1 then (false, r2.2.2, [Phase.BACK_OFF, Phase.SEEK])
    else
      let r3 := step_while_over_sensor forward sensor r2.2.2 max_sensor_steps
      if !r3.1 then (false, r3.2.2, [Phase.BACK_OFF, Phase.SEEK, Phase.CLEAR])
      else (true, take_steps_pos (!forward) r3.2.2 (r3.2.1 / 2),
            [Phase.BACK_OFF, Phase.SEEK, Phase.CLEAR, Phase.CENTER])

/-- earth_model.py `validate_orbit_degrees`: `sys.exit(1)` outside [0, 180]. -/
def validate_orbit_degrees (degrees : ℚ) : Except ℕ Unit :=
  if 0 ≤ degrees ∧ degrees ≤ 180 then Except.ok () else Except.error 1

/-- earth_model.py `validate_rotation_degrees`: `sys.exit(1)` outside
[0, 360] (the source bound is the closed interval `0 <= degrees <= 360`). -/
def validate_rotation_degrees (degrees : ℚ) : Except ℕ Unit :=
  if 0 ≤ degrees ∧ degrees ≤ 360 then Except.ok () else Except.error 1

/-- Python `int()` on a rational: truncation toward zero. -/
def pyInt (q : ℚ) : ℤ :=
  if q < 0 then -(Rat.floor (-q)) else Rat.floor q

/-- earth_model.py `steps_and_floor`: fractional step count and its `int()`
truncation. -/
def steps_and_floor (degrees : ℚ) : ℚ × ℤ :=
  (degrees / DEGREES_PER_STEP, pyInt (degrees / DEGREES_PER_STEP))

/-- Orbit-axis branch of the motion loop: when the target step differs from
the current one, move `abs(target - current)` steps, forward exactly when the
target is larger. -/
def orbit_axis_update (current target : ℤ) : List Bool :=
  if target ≠ current then take_steps (decide (current < target)) (target - current).natAbs
  else []

/-- Rotation-axis step delta of the motion loop: plain difference, plus
`STEPS_PER_REV` when negative. -/
def rotation_step_delta (current target : ℤ) : ℤ :=
  let steps := target - current
  if steps < 0 then STEPS_PER_REV + steps else steps

/-- Rotation-axis branch of the motion loop: always moves forward by the
wrapped delta. -/
def rotation_axis_update (current target : ℤ) : List Bool :=
  if target ≠ current then take_steps true (rotation_step_delta current target).toNat
  else []

/-- One sample of the motion loop body: validate both degree values (fatal
exit code 1 on failure), then quantize and issue the two axis updates.
Returns the orbit and rotation command lists and the new step floors. -/
def sample_step (em : EarthModel) (orbit_floor rotation_floor : ℤ) :
    Except ℕ (List Bool × List Bool × ℤ × ℤ) :=
  match validate_orbit_degrees em.orbit_degrees with
  | Except.error e => Except.error e
  | Except.ok _ =>
    match validate_rotation_degrees em.rotation_degrees with
    | Except.error e => Except.error e
    | Except.ok _ =>
      let nof := (steps_and_floor em.orbit_degrees).2
      let nrf := (steps_and_floor em.rotation_degrees).2
      Except.ok (orbit_axis_update orbit_floor nof, rotation_axis_update rotation_floor nrf,
                 nof, nrf)

/-- earth_model.py `main`, up to the first absolute positioning: the two
`scan` calls (whose results the source discards), then validation and the
initial `take_steps` moves to the absolute step floors.  Returns the two
absolute positioning command lists, or the exit code. -/
def main_startup (sensor0 sensor1 : ℤ → Bool) (em : EarthModel) :
    Except ℕ (List Bool × List Bool) :=
  let _cal0 := scan false sensor0 0 100 50
  let _cal1 := scan true sensor1 0 200 50
  match validate_orbit_degrees em.orbit_degrees with
  | Except.error e => Except.error e
  | Except.ok _ =>
    match validate_rotation_degrees em.rotation_degrees with
    | Except.error e => Except.error e
    | Except.ok _ =>
      Except.ok (take_steps true (steps_and_floor em.orbit_degrees).2.toNat,
                 take_steps true (steps_and_floor em.rotation_degrees).2.toNat)

/-- Sensor model used to exercise a fully successful calibration: the magnet
is sensed on positions 0 to 3. -/
def sampleSensor : ℤ → Bool :=
  fun z => decide (0 ≤ z ∧ z < 4)

end EarthMotion

namespace Earth

theorem find_surrounding_events_sound {α : Type} (t : ℚ) :
    ∀ (events : List (EventTime α)) (x y : EventTime α),
      find_surrounding_events events t = some (x, y) →
      ∃ n : ℕ, events.get? n = some x ∧ events.get? (n + 1) = some y ∧ x.time < t ∧ t < y.time := by
  intro events
  induction events with
  | nil => intro x y h; simp [find_surrounding_events] at h
  | cons a rest ih =>
    intro x y h
    cases rest with
    | nil => simp [find_surrounding_events] at h
    | cons b rest2 =>
      rw [find_surrounding_events] at h
      by_cases hc : a.time < t ∧ t < b.time
      · rw [if_pos hc] at h
        simp only [Option.some.injEq, Prod.mk.injEq] at h
        obtain ⟨rfl, rfl⟩ := h
        exact ⟨0, rfl, rfl, hc.1, hc.2⟩
      · rw [if_neg hc] at h
        obtain ⟨n, h1, h2, h3, h4⟩ := ih x y h
        exact ⟨n + 1, h1, h2, h3, h4⟩

theorem time_mono_of_pairwise {α : Type} {events : List (EventTime α)}
    (hs : events.Pairwise fun u v => u.time < v.time) {i j : ℕ} {u v : EventTime α}
    (hu : events.get? i = some u) (hv : events.get? j = some v) (hij : i ≤ j) :
    u.time ≤ v.time := by
  rw [List.get?_eq_getElem?, List.getElem?_eq_some] at hu hv
  obtain ⟨hi, rfl⟩ := hu
  obtain ⟨hj, rfl⟩ := hv
  rcases eq_or_lt_of_le hij with rfl | hlt
  · exact le_refl _
  · exact le_of_lt (List.pairwise_iff_getElem.mp hs i j hi hj hlt)

theorem find_surrounding_events_complete {α : Type} (t : ℚ) :
    ∀ (events : List (EventTime α)),
      (events.Pairwise fun u v => u.time < v.time) →
      ∀ (n : ℕ) (x y : EventTime α), events.get? n = some x → events.get? (n + 1) = some y →
        x.time < t → t < y.time → find_surrounding_events events t = some (x, y) := by
  intro events
  induction events with
  | nil => intro _ n x y h1 _ _ _; simp at h1
  | cons a rest ih =>
    intro hs n x y h1 h2 hx hy
    cases rest with
    | nil => cases n <;> simp at h2
    | cons b rest2 =>
      rw [find_surrounding_events]
      cases n with
      | zero =>
        obtain rfl : a = x := by injection h1
        obtain rfl : b = y := by injection h2
        rw [if_pos ⟨hx, hy⟩]
      | succ m =>
        have htl : (b :: rest2).Pairwise fun u v => u.time < v.time :=
          (List.pairwise_cons.mp hs).2
        have hbx : b.time ≤ x.time :=
          time_mono_of_pairwise htl (i := 0) (j := m) rfl h1 (Nat.zero_le m)
        have hnc : ¬ (a.time < t ∧ t < b.time) := by
          intro hc
          exact absurd (lt_of_lt_of_le hc.2 (le_trans hbx (le_of_lt hx))) (lt_irrefl t)
        rw [if_neg hnc]
        exact ih htl m x y h1 h2 hx hy

/-- C6: on an ascending-sorted event list, `find_surrounding_events` returns
exactly the consecutive pair that strictly straddles the query time, and
returns no result when the time lies before the first event, after the last
event, or exactly on any event's timestamp. -/
theorem find_surrounding_events_spec {α : Type} (events : List (EventTime α)) (t : ℚ)
    (hsorted : events.Pairwise fun u v => u.time < v.time) :
    (∀ x y, find_surrounding_events events t = some (x, y) →
        ∃ n : ℕ, events.get? n = some x ∧ events.get? (n + 1) = some y ∧
          x.time < t ∧ t < y.time)
    ∧ (∀ (n : ℕ) (x y), events.get? n = some x → events.get? (n + 1) = some y →
        x.time < t → t < y.time → find_surrounding_events events t = some (x, y))
    ∧ (∀ x, events.head? = some x → t < x.time → find_surrounding_events events t = none)
    ∧ (∀ x, events.getLast? = some x → x.time < t → find_surrounding_events events t = none)
    ∧ (∀ e, e ∈ events → t = e.time → find_surrounding_events events t = none) := by
  refine ⟨fun x y h => find_surrounding_events_sound t events x y h,
          fun n x y => find_surrounding_events_complete t events hsorted n x y, ?_, ?_, ?_⟩
  · intro x hhead hlt
    cases hf : find_surrounding_events events t with
    | none => rfl
    | some p =>
      exfalso
      obtain ⟨n, h1, _h2, h3, _h4⟩ := find_surrounding_events_sound t events p.1 p.2 (by
        rw [hf])
      have hx0 : events.get? 0 = some x := by
        cases events with
        | nil => simp at hhead
        | cons a rest => injection hhead with hh; rw [hh]; rfl
      have := time_mono_of_pairwise hsorted hx0 h1 (Nat.zero_le n)
      exact absurd (lt_trans hlt (lt_of_le_of_lt this h3)) (lt_irrefl t)
  · intro x hlast hlt
    cases hf : find_surrounding_events events t with
    | none => rfl
    | some p =>
      exfalso
      obtain ⟨n, _h1, h2, _h3, h4⟩ := find_surrounding_events_sound t events p.1 p.2 (by
        rw [hf])
      have hlen : n + 1 < events.length := by
        have := h2
        rw [List.get?_eq_getElem?, List.getElem?_eq_some] at this
        exact this.1
      have hxl : events.get? (events.length - 1) = some x := by
        rw [List.get?_eq_getElem?, ← List.getLast?_eq_getElem?]
        exact hlast
      have := time_mono_of_pairwise hsorted h2 hxl (by omega)
      exact absurd (lt_trans h4 (lt_of_le_of_lt this hlt)) (lt_irrefl t)
  · intro e hmem heq
    cases hf : find_surrounding_events events t with
    | none => rfl
    | some p =>
      exfalso
      obtain ⟨n, h1, h2, h3, h4⟩ := find_surrounding_events_sound t events p.1 p.2 (by
        rw [hf])
      obtain ⟨i, hi⟩ := List.mem_iff_getElem?.mp hmem
      have hie : events.get? i = some e := by rw [List.get?_eq_getElem?]; exact hi
      rcases le_or_lt i n with hile | hgt
      · have := time_mono_of_pairwise hsorted hie h1 hile
        rw [← heq] at this
        exact absurd (lt_of_le_of_lt this h3) (lt_irrefl t)
      · have := time_mono_of_pairwise hsorted h2 hie hgt
        rw [← heq] at this
        exact absurd (lt_of_lt_of_le h4 this) (lt_irrefl t)

/-- C6 witness: the sorted 5-element timeline; a query strictly between
elements 2 and 3 yields that pair, queries before element 0, after element 4
or exactly on an event yield no result. -/
theorem find_surrounding_events_spec_witness :
    (sampleTimeline.Pairwise fun u v => u.time < v.time)
    ∧ find_surrounding_events sampleTimeline 5 = some (⟨⟨2, "e2"⟩, 4⟩, ⟨⟨3, "e3"⟩, 6⟩)
    ∧ find_surrounding_events sampleTimeline (-1) = none
    ∧ find_surrounding_events sampleTimeline 9 = none
    ∧ find_surrounding_events sampleTimeline 4 = none := by
  have hs : sampleTimeline.Pairwise fun u v => u.time < v.time := by decide
  refine ⟨hs, ?_, ?_, ?_, ?_⟩
  · exact (find_surrounding_events_spec sampleTimeline 5 hs).2.1 2
      ⟨⟨2, "e2"⟩, 4⟩ ⟨⟨3, "e3"⟩, 6⟩ (by decide) (by decide) (by decide) (by decide)
  · exact (find_surrounding_events_spec sampleTimeline (-1) hs).2.2.1
      ⟨⟨0, "e0"⟩, 0⟩ (by decide) (by decide)
  · exact (find_surrounding_events_spec sampleTimeline 9 hs).2.2.2.1
      ⟨⟨4, "e4"⟩, 8⟩ (by decide) (by decide)
  · exact (find_surrounding_events_spec sampleTimeline 4 hs).2.2.2.2
      ⟨⟨2, "e2"⟩, 4⟩ (by decide) (by decide)

end Earth

namespace Earth

theorem seg_ratio_lt {t0 t1 : ℚ} (h : t0 < t1) (c : ℚ) (hc : 0 < c) {u v : ℚ} (huv : u < v) :
    (u - t0) / (t1 - t0) * c < (v - t0) / (t1 - t0) * c := by
  have hd : (0:ℚ) < t1 - t0 := sub_pos.mpr h
  rw [div_mul_eq_mul_div, div_mul_eq_mul_div, div_lt_div_iff₀ hd hd]
  nlinarith [mul_pos (mul_pos (sub_pos.mpr huv) hc) hd]

theorem relative_summer (d : ℚ) :
    relative_to_absolute_orbit_degrees EVENT_SUMMER_SOLSTICE d = 180 - d := rfl

theorem relative_autumn (d : ℚ) :
    relative_to_absolute_orbit_degrees EVENT_AUTUMNAL_EQUINOX d = 90 - d := rfl

theorem relative_winter (d : ℚ) :
    relative_to_absolute_orbit_degrees EVENT_WINTER_SOLSTICE d = d := rfl

theorem relative_vernal (d : ℚ) :
    relative_to_absolute_orbit_degrees EVENT_VERNAL_EQUINOX d = 90 + d := rfl

/-- C1: between two straddling season events, `orbit_degrees_from_winter_solstice`
is `relative_to_absolute_orbit_degrees` of the fractional position scaled by
90; each segment is affine (hence continuous and piecewise linear), the
segments meet at 0 at winter solstice, 90 at the equinoxes and 180 at summer
solstice, and each segment is strictly monotone (rising after winter
solstice and the vernal equinox, falling after summer solstice and the
autumnal equinox), a triangle wave over the year. -/
theorem orbit_triangle_wave (t0 t1 : ℚ) (h : t0 < t1) :
    (∀ (events : List (EventTime ℕ)) (u : ℚ) (x y : EventTime ℕ),
        find_surrounding_events events u = some (x, y) →
        orbit_degrees_from_winter_solstice events u =
          some (orbitSeg x.event.value x.time y.time u))
    ∧ (∀ (s : ℕ) (u : ℚ) (x y : EventTime ℕ),
        orbitSeg s x.time y.time u =
          relative_to_absolute_orbit_degrees s (position_as_percent x y u * 90))
    ∧ (∀ s : ℕ, ∃ a b : ℚ, ∀ u : ℚ, orbitSeg s t0 t1 u = a * u + b)
    ∧ orbitSeg EVENT_WINTER_SOLSTICE t0 t1 t0 = 0
    ∧ orbitSeg EVENT_WINTER_SOLSTICE t0 t1 t1 = 90
    ∧ orbitSeg EVENT_VERNAL_EQUINOX t0 t1 t0 = 90
    ∧ orbitSeg EVENT_VERNAL_EQUINOX t0 t1 t1 = 180
    ∧ orbitSeg EVENT_SUMMER_SOLSTICE t0 t1 t0 = 180
    ∧ orbitSeg EVENT_SUMMER_SOLSTICE t0 t1 t1 = 90
    ∧ orbitSeg EVENT_AUTUMNAL_EQUINOX t0 t1 t0 = 90
    ∧ orbitSeg EVENT_AUTUMNAL_EQUINOX t0 t1 t1 = 0
    ∧ StrictMono (orbitSeg EVENT_WINTER_SOLSTICE t0 t1)
    ∧ StrictMono (orbitSeg EVENT_VERNAL_EQUINOX t0 t1)
    ∧ StrictAnti (orbitSeg EVENT_SUMMER_SOLSTICE t0 t1)
    ∧ StrictAnti (orbitSeg EVENT_AUTUMNAL_EQUINOX t0 t1) := by
  have hd : (0:ℚ) < t1 - t0 := sub_pos.mpr h
  have hne : t1 - t0 ≠ 0 := ne_of_gt hd
  have hP0 : (t0 - t0) / (t1 - t0) * 90 = 0 := by rw [sub_self, zero_div, zero_mul]
  have hP1 : (t1 - t0) / (t1 - t0) * 90 = 90 := by rw [div_self hne, one_mul]
  refine ⟨?_, ?_, ?_, ?_, ?_, ?_, ?_, ?_, ?_, ?_, ?_, ?_, ?_, ?_, ?_⟩
  · intro events u x y hf
    simp [orbit_degrees_from_winter_solstice, hf, orbitSeg, position_as_percent]
  · intro s u x y
    simp [orbitSeg, position_as_percent]
  · intro s
    by_cases h1 : s = EVENT_SUMMER_SOLSTICE
    · subst h1
      refine ⟨-(90 / (t1 - t0)), 180 + 90 * t0 / (t1 - t0), fun u => ?_⟩
      simp only [orbitSeg, relative_summer]
      field_simp
      ring
    · by_cases h2 : s = EVENT_AUTUMNAL_EQUINOX
      · subst h2
        refine ⟨-(90 / (t1 - t0)), 90 + 90 * t0 / (t1 - t0), fun u => ?_⟩
        simp only [orbitSeg, relative_autumn]
        field_simp
        ring
      · by_cases h3 : s = EVENT_WINTER_SOLSTICE
        · subst h3
          refine ⟨90 / (t1 - t0), -(90 * t0 / (t1 - t0)), fun u => ?_⟩
          simp only [orbitSeg, relative_winter]
          field_simp
          ring
        · refine ⟨90 / (t1 - t0), 90 - 90 * t0 / (t1 - t0), fun u => ?_⟩
          simp only [orbitSeg, relative_to_absolute_orbit_degrees]
          rw [if_neg h1, if_neg h2, if_neg h3]
          field_simp
          ring
  · simp only [orbitSeg, relative_winter]
    exact hP0
  · simp only [orbitSeg, relative_winter]
    exact hP1
  · simp only [orbitSeg, relative_vernal, hP0]
    norm_num
  · simp only [orbitSeg, relative_vernal, hP1]
    norm_num
  · simp only [orbitSeg, relative_summer, hP0]
    norm_num
  · simp only [orbitSeg, relative_summer, hP1]
    norm_num
  · simp only [orbitSeg, relative_autumn, hP0]
    norm_num
  · simp only [orbitSeg, relative_autumn, hP1]
    norm_num
  · intro u v huv
    simp only [orbitSeg, relative_winter]
    exact seg_ratio_lt h 90 (by norm_num) huv
  · intro u v huv
    simp only [orbitSeg, relative_vernal]
    have := seg_ratio_lt h 90 (by norm_num : (0:ℚ) < 90) huv
    linarith
  · intro u v huv
    simp only [orbitSeg, relative_summer]
    have := seg_ratio_lt h 90 (by norm_num : (0:ℚ) < 90) huv
    linarith
  · intro u v huv
    simp only [orbitSeg, relative_autumn]
    have := seg_ratio_lt h 90 (by norm_num : (0:ℚ) < 90) huv
    linarith

/-- C1 witness: on the unit segment the winter-solstice segment starts at 0
and the summer-solstice segment starts at 180. -/
theorem orbit_triangle_wave_witness :
    (0:ℚ) < 1 ∧ orbitSeg EVENT_WINTER_SOLSTICE 0 1 0 = 0
      ∧ orbitSeg EVENT_SUMMER_SOLSTICE 0 1 0 = 180 := by
  have h := orbit_triangle_wave 0 1 (by norm_num)
  exact ⟨by norm_num, h.2.2.2.1, h.2.2.2.2.2.2.2.1⟩

end Earth

namespace Earth

theorem rotSeg_noon (t0 t1 t : ℚ) : rotSeg true t0 t1 t = (t - t0) / (t1 - t0) * 180 := rfl

theorem rotSeg_nadir (t0 t1 t : ℚ) :
    rotSeg false t0 t1 t = (t - t0) / (t1 - t0) * 180 + 180 := rfl

/-- C7: between two straddling noon/nadir events,
`rotation_degrees_from_solar_noon` is the fractional position scaled by 180,
plus 180 exactly when the preceding event carries tag `false` (nadir); each
segment starts at 0 after a solar noon and at 180 after a nadir, ends at 180
resp. 360 (the 0/360 seam), and is strictly increasing. -/
theorem rotation_ramp (t0 t1 : ℚ) (h : t0 < t1) :
    (∀ (events : List (EventTime Bool)) (u : ℚ) (x y : EventTime Bool),
        find_surrounding_events events u = some (x, y) →
        rotation_degrees_from_solar_noon events u =
          some (rotSeg x.event.value x.time y.time u))
    ∧ (∀ (tag : Bool) (u : ℚ) (x y : EventTime Bool),
        rotSeg tag x.time y.time u =
          (if tag then position_as_percent x y u * 180
           else position_as_percent x y u * 180 + 180))
    ∧ rotSeg true t0 t1 t0 = 0
    ∧ rotSeg true t0 t1 t1 = 180
    ∧ rotSeg false t0 t1 t0 = 180
    ∧ rotSeg false t0 t1 t1 = 360
    ∧ StrictMono (rotSeg true t0 t1)
    ∧ StrictMono (rotSeg false t0 t1) := by
  have hd : (0:ℚ) < t1 - t0 := sub_pos.mpr h
  have hne : t1 - t0 ≠ 0 := ne_of_gt hd
  have hP0 : (t0 - t0) / (t1 - t0) * 180 = 0 := by rw [sub_self, zero_div, zero_mul]
  have hP1 : (t1 - t0) / (t1 - t0) * 180 = 180 := by rw [div_self hne, one_mul]
  refine ⟨?_, ?_, ?_, ?_, ?_, ?_, ?_, ?_⟩
  · intro events u x y hf
    cases hx : x.event.value <;>
      simp [rotation_degrees_from_solar_noon, hf, hx, rotSeg, position_as_percent]
  · intro tag u x y
    cases tag <;> simp [rotSeg_noon, rotSeg_nadir, position_as_percent]
  · rw [rotSeg_noon]; exact hP0
  · rw [rotSeg_noon]; exact hP1
  · rw [rotSeg_nadir, hP0]; norm_num
  · rw [rotSeg_nadir, hP1]; norm_num
  · intro u v huv
    rw [rotSeg_noon, rotSeg_noon]
    exact seg_ratio_lt h 180 (by norm_num) huv
  · intro u v huv
    rw [rotSeg_nadir, rotSeg_nadir]
    have := seg_ratio_lt h 180 (by norm_num : (0:ℚ) < 180) huv
    linarith

/-- C7 witness: on the unit segment, a noon segment starts at 0 and a nadir
segment starts at 180. -/
theorem rotation_ramp_witness :
    (0:ℚ) < 1 ∧ rotSeg true 0 1 0 = 0 ∧ rotSeg false 0 1 0 = 180 := by
  have h := rotation_ramp 0 1 (by norm_num)
  exact ⟨by norm_num, h.2.2.1, h.2.2.2.2.1⟩

theorem position_frac_bounds {α : Type} {x y : EventTime α} {t : ℚ}
    (hx : x.time < t) (hy : t < y.time) :
    0 < position_as_percent x y t ∧ position_as_percent x y t < 1 := by
  have hd : (0:ℚ) < y.time - x.time := by linarith
  constructor
  · exact div_pos (by linarith) hd
  · rw [position_as_percent, div_lt_one hd]
    linarith

theorem orbit_degrees_bounds (events : List (EventTime ℕ)) (t : ℚ) (o : ℚ)
    (h : orbit_degrees_from_winter_solstice events t = some o) : 0 < o ∧ o < 180 := by
  rw [orbit_degrees_from_winter_solstice] at h
  cases hf : find_surrounding_events events t with
  | none => rw [hf] at h; simp at h
  | some p =>
    rw [hf] at h
    obtain ⟨n, _, _, hxt, hty⟩ := find_surrounding_events_sound t events p.1 p.2 hf
    obtain ⟨hp0, hp1⟩ := position_frac_bounds hxt hty
    have hinj := Option.some.inj h
    have hd0 : 0 < position_as_percent p.1 p.2 t * 90 := mul_pos hp0 (by norm_num)
    have hd90 : position_as_percent p.1 p.2 t * 90 < 90 := by nlinarith
    rw [← hinj]
    dsimp only
    by_cases h1 : p.1.event.value = EVENT_SUMMER_SOLSTICE
    · rw [h1, relative_summer]; constructor <;> linarith
    · by_cases h2 : p.1.event.value = EVENT_AUTUMNAL_EQUINOX
      · rw [h2, relative_autumn]; constructor <;> linarith
      · by_cases h3 : p.1.event.value = EVENT_WINTER_SOLSTICE
        · rw [h3, relative_winter]; constructor <;> linarith
        · simp only [relative_to_absolute_orbit_degrees]
          rw [if_neg h1, if_neg h2, if_neg h3]
          constructor <;> linarith

theorem rotation_degrees_bounds (events : List (EventTime Bool)) (t : ℚ) (r : ℚ)
    (h : rotation_degrees_from_solar_noon events t = some r) : 0 < r ∧ r < 360 := by
  rw [rotation_degrees_from_solar_noon] at h
  cases hf : find_surrounding_events events t with
  | none => rw [hf] at h; simp at h
  | some p =>
    rw [hf] at h
    obtain ⟨n, _, _, hxt, hty⟩ := find_surrounding_events_sound t events p.1 p.2 hf
    obtain ⟨hp0, hp1⟩ := position_frac_bounds hxt hty
    have hinj := Option.some.inj h
    have hd0 : 0 < position_as_percent p.1 p.2 t * 180 := mul_pos hp0 (by norm_num)
    have hd180 : position_as_percent p.1 p.2 t * 180 < 180 := by nlinarith
    cases hx : p.1.event.value
    · rw [← hinj]
      simp [hx]
      constructor <;> linarith
    · rw [← hinj]
      simp [hx]
      constructor <;> linarith

/-- C2: whenever both degree computations succeed, `earth_model` pairs the
orbit value with rotation minus orbit, adding 360 exactly when that
difference is negative, and the resulting rotation lies in [0, 360). -/
theorem earth_model_normalized (seasonEvents : List (EventTime ℕ))
    (noonEvents : List (EventTime Bool)) (t : ℚ) (em : EarthModel)
    (hem : earth_model seasonEvents noonEvents t = some em) :
    (∃ o r, orbit_degrees_from_winter_solstice seasonEvents t = some o ∧
        rotation_degrees_from_solar_noon noonEvents t = some r ∧
        em.orbit_degrees = o ∧
        em.rotation_degrees = (if r - o < 0 then r - o + 360 else r - o))
    ∧ 0 ≤ em.rotation_degrees ∧ em.rotation_degrees < 360 := by
  rw [earth_model] at hem
  cases ho : orbit_degrees_from_winter_solstice seasonEvents t with
  | none => rw [ho] at hem; simp at hem
  | some o =>
    rw [ho] at hem
    cases hr : rotation_degrees_from_solar_noon noonEvents t with
    | none => rw [hr] at hem; simp at hem
    | some r =>
      rw [hr] at hem
      have hem2 : (⟨o, if r - o < 0 then r - o + 360 else r - o⟩ : EarthModel) = em := by
        injection hem
      obtain ⟨ho1, ho2⟩ := orbit_degrees_bounds seasonEvents t o ho
      obtain ⟨hr1, hr2⟩ := rotation_degrees_bounds noonEvents t r hr
      rw [← hem2]
      refine ⟨⟨o, r, rfl, rfl, rfl, rfl⟩, ?_, ?_⟩
      · dsimp only
        split
        · linarith
        · linarith
      · dsimp only
        split
        · linarith
        · linarith

/-- C2 witness: concrete straddling season and noon/nadir pairs; at time 45
the model is orbit 45 and normalized rotation 45, inside [0, 360). -/
theorem earth_model_normalized_witness :
    earth_model sampleSeasonEvents sampleNoonEvents 45 = some ⟨45, 45⟩
    ∧ 0 ≤ (45:ℚ) ∧ (45:ℚ) < 360 := by
  have hm : earth_model sampleSeasonEvents sampleNoonEvents 45 = some ⟨45, 45⟩ := by
    norm_num [earth_model, orbit_degrees_from_winter_solstice, rotation_degrees_from_solar_noon,
      find_surrounding_events, position_as_percent, relative_to_absolute_orbit_degrees,
      sampleSeasonEvents, sampleNoonEvents, EVENT_WINTER_SOLSTICE, EVENT_SUMMER_SOLSTICE,
      EVENT_AUTUMNAL_EQUINOX]
  have h := earth_model_normalized sampleSeasonEvents sampleNoonEvents 45 ⟨45, 45⟩ hm
  exact ⟨hm, h.2⟩

end Earth

namespace EarthMotion

theorem step_while_spec (forward : Bool) (sensor : ℤ → Bool) :
    ∀ (max_steps : ℕ) (pos : ℤ),
      (step_while_over_sensor forward sensor pos max_steps).2.1 ≤ max_steps
      ∧ ((step_while_over_sensor forward sensor pos max_steps).1 = false ↔
          ∀ k : ℕ, k < max_steps → sensor (pos + k * stepDir forward) = true)
      ∧ ((step_while_over_sensor forward sensor pos max_steps).1 = false →
          (step_while_over_sensor forward sensor pos max_steps).2.1 = max_steps) := by
  intro max_steps
  induction max_steps with
  | zero =>
    intro pos
    refine ⟨le_refl 0, ?_, fun _ => rfl⟩
    simp [step_while_over_sensor]
  | succ n ih =>
    intro pos
    by_cases hs : sensor pos = true
    · have h1 := ih (pos + stepDir forward)
      simp only [step_while_over_sensor, hs, if_true]
      refine ⟨by omega, ?_, by intro hf; have := h1.2.2 hf; omega⟩
      constructor
      · intro hf k hk
        cases k with
        | zero => simpa using hs
        | succ j =>
          have hj := (h1.2.1).mp hf j (by omega)
          convert hj using 2
          push_cast
          ring
      · intro hall
        apply (h1.2.1).mpr
        intro j hj
        have := hall (j + 1) (by omega)
        convert this using 2
        push_cast
        ring
    · simp only [step_while_over_sensor, hs, if_false]
      refine ⟨Nat.zero_le _, ?_, by intro hf; simp at hf⟩
      constructor
      · intro hf; simp at hf
      · intro hall
        have := hall 0 (by omega)
        simp at this
        exact absurd this hs

theorem step_until_spec (forward : Bool) (sensor : ℤ → Bool) :
    ∀ (max_steps : ℕ) (pos : ℤ),
      (step_until_over_sensor forward sensor pos max_steps).2.1 ≤ max_steps
      ∧ ((step_until_over_sensor forward sensor pos max_steps).1 = false ↔
          ∀ k : ℕ, k < max_steps → sensor (pos + k * stepDir forward) = false)
      ∧ ((step_until_over_sensor forward sensor pos max_steps).1 = false →
          (step_until_over_sensor forward sensor pos max_steps).2.1 = max_steps) := by
  intro max_steps
  induction max_steps with
  | zero =>
    intro pos
    refine ⟨le_refl 0, ?_, fun _ => rfl⟩
    simp [step_until_over_sensor]
  | succ n ih =>
    intro pos
    by_cases hs : sensor pos = true
    · simp only [step_until_over_sensor, hs, if_true]
      refine ⟨Nat.zero_le _, ?_, by intro hf; simp at hf⟩
      constructor
      · intro hf; simp at hf
      · intro hall
        have := hall 0 (by omega)
        simp at this
        rw [hs] at this
        cases this
    · have h1 := ih (pos + stepDir forward)
      have hs2 : sensor pos = false := by simpa using hs
      simp only [step_until_over_sensor, hs2, Bool.false_eq_true, if_false]
      refine ⟨by omega, ?_, by intro hf; have := h1.2.2 hf; omega⟩
      constructor
      · intro hf k hk
        cases k with
        | zero =>
          simp only [Nat.cast_zero, zero_mul, add_zero]
          exact Bool.not_eq_true _ |>.mp hs
        | succ j =>
          have hj := (h1.2.1).mp hf j (by omega)
          convert hj using 2
          push_cast
          ring
      · intro hall
        apply (h1.2.1).mpr
        intro j hj
        have := hall (j + 1) (by omega)
        convert this using 2
        push_cast
        ring

/-- C10: both sensor-scan loops take at most `max_steps` motor steps, and
report `found = false` exactly when the sensor reading never changed during
the whole budget (stayed `true` for the while-loop, `false` for the
until-loop), in which case the step count equals `max_steps`. -/
theorem step_functions_bounded (forward : Bool) (sensor : ℤ → Bool) (pos : ℤ)
    (max_steps : ℕ) :
    ((step_while_over_sensor forward sensor pos max_steps).2.1 ≤ max_steps
      ∧ ((step_while_over_sensor forward sensor pos max_steps).1 = false ↔
          ∀ k : ℕ, k < max_steps → sensor (pos + k * stepDir forward) = true)
      ∧ ((step_while_over_sensor forward sensor pos max_steps).1 = false →
          (step_while_over_sensor forward sensor pos max_steps).2.1 = max_steps))
    ∧ ((step_until_over_sensor forward sensor pos max_steps).2.1 ≤ max_steps
      ∧ ((step_until_over_sensor forward sensor pos max_steps).1 = false ↔
          ∀ k : ℕ, k < max_steps → sensor (pos + k * stepDir forward) = false)
      ∧ ((step_until_over_sensor forward sensor pos max_steps).1 = false →
          (step_until_over_sensor forward sensor pos max_steps).2.1 = max_steps)) :=
  ⟨step_while_spec forward sensor max_steps pos, step_until_spec forward sensor max_steps pos⟩

/-- C10 witness: over an always-sensing sensor the while-loop exhausts its
budget of 3 steps without finding the edge. -/
theorem step_functions_bounded_witness :
    (step_while_over_sensor true (fun _ => true) 0 3).1 = false
    ∧ (step_while_over_sensor true (fun _ => true) 0 3).2.1 = 3
    ∧ (step_while_over_sensor true (fun _ => true) 0 3).2.1 ≤ 3 := by
  have h := step_functions_bounded true (fun _ => true) 0 3
  have hf : (step_while_over_sensor true (fun _ => true) 0 3).1 = false :=
    (h.1.2.1).mpr (fun k _ => rfl)
  exact ⟨hf, h.1.2.2 hf, h.1.1⟩

/-- C3: the rotation-axis delta equals `(target - current) mod
STEPS_PER_REV`, lies in `[0, STEPS_PER_REV)`, the update issues exactly that
many step commands, and every issued command is forward. -/
theorem rotation_axis_wraparound (current target : ℤ)
    (hcur : 0 ≤ current ∧ current < STEPS_PER_REV)
    (htgt : 0 ≤ target ∧ target < STEPS_PER_REV) :
    rotation_step_delta current target = (target - current) % STEPS_PER_REV
    ∧ 0 ≤ (target - current) % STEPS_PER_REV
    ∧ (target - current) % STEPS_PER_REV < STEPS_PER_REV
    ∧ (rotation_axis_update current target).length =
        ((target - current) % STEPS_PER_REV).toNat
    ∧ ∀ c ∈ rotation_axis_update current target, c = true := by
  obtain ⟨hc0, hc1⟩ := hcur
  obtain ⟨ht0, ht1⟩ := htgt
  have hSP : STEPS_PER_REV = 200 := rfl
  rw [hSP] at hc1 ht1
  have hdelta : rotation_step_delta current target = (target - current) % STEPS_PER_REV := by
    simp only [rotation_step_delta, hSP]
    split <;> omega
  refine ⟨hdelta, by rw [hSP]; omega, by rw [hSP]; omega, ?_, ?_⟩
  · unfold rotation_axis_update
    by_cases he : target = current
    · simp [he, hSP]
    · rw [if_pos he]
      unfold take_steps
      rw [List.length_replicate, hdelta]
  · intro c hc
    unfold rotation_axis_update at hc
    by_cases he : target = current
    · simp [he] at hc
    · rw [if_pos he] at hc
      unfold take_steps at hc
      exact List.eq_of_mem_replicate hc

/-- C3 witness: the claim's example, current step 199 and target step 0 at
200 steps per revolution give a forward delta of 1. -/
theorem rotation_axis_wraparound_witness :
    ((0:ℤ) ≤ 199 ∧ (199:ℤ) < STEPS_PER_REV) ∧ ((0:ℤ) ≤ 0 ∧ (0:ℤ) < STEPS_PER_REV)
    ∧ rotation_step_delta 199 0 = 1 := by
  have h := rotation_axis_wraparound 199 0 ⟨by decide, by decide⟩ ⟨by decide, by decide⟩
  refine ⟨⟨by decide, by decide⟩, ⟨by decide, by decide⟩, ?_⟩
  rw [h.1]
  decide

/-- C9: each axis target is the floor of degrees over `DEGREES_PER_STEP`
(for the nonnegative degree values that pass validation), with
`DEGREES_PER_STEP = 360 / STEPS_PER_REV`; the orbit axis moves by the plain
signed difference with no wraparound: `abs(target - current)` commands, all
in the direction of the difference's sign, e.g. 10 to 3 is 7 backward
steps. -/
theorem orbit_axis_plain_delta :
    DEGREES_PER_STEP = 360 / (STEPS_PER_REV : ℚ)
    ∧ (∀ d : ℚ, 0 ≤ d → (steps_and_floor d).2 = Int.floor (d / DEGREES_PER_STEP))
    ∧ (∀ d : ℚ, (steps_and_floor d).1 = d / DEGREES_PER_STEP)
    ∧ (∀ current target : ℤ,
        (orbit_axis_update current target).length = (target - current).natAbs
        ∧ ∀ c ∈ orbit_axis_update current target, c = decide (current < target))
    ∧ orbit_axis_update 10 3 = List.replicate 7 false := by
  refine ⟨rfl, ?_, fun d => rfl, ?_, by decide⟩
  · intro d hd
    have hdps : (0:ℚ) ≤ DEGREES_PER_STEP := by
      rw [DEGREES_PER_STEP, STEPS_PER_REV]
      norm_num
    have hq : 0 ≤ d / DEGREES_PER_STEP := div_nonneg hd hdps
    unfold steps_and_floor pyInt
    rw [if_neg (not_lt.mpr hq)]
    exact (Rat.floor_def' _).trans Rat.floor_def.symm
  · intro current target
    constructor
    · unfold orbit_axis_update
      by_cases he : target = current
      · simp [he]
      · rw [if_pos he]
        unfold take_steps
        rw [List.length_replicate]
    · intro c hc
      unfold orbit_axis_update at hc
      by_cases he : target = current
      · simp [he] at hc
      · rw [if_pos he] at hc
        unfold take_steps at hc
        exact List.eq_of_mem_replicate hc

/-- C9 witness: degrees 90 floors to step 50 through the 1.8-degree step
size, and the 10-to-3 move is 7 backward commands. -/
theorem orbit_axis_plain_delta_witness :
    (0:ℚ) ≤ 90 ∧ (steps_and_floor 90).2 = Int.floor ((90:ℚ) / DEGREES_PER_STEP)
    ∧ orbit_axis_update 10 3 = List.replicate 7 false := by
  have h := orbit_axis_plain_delta
  exact ⟨by norm_num, h.2.1 90 (by norm_num), h.2.2.2.2⟩

end EarthMotion

namespace EarthMotion

open Earth

theorem pyInt_intCast (n : ℤ) (h0 : 0 ≤ n) : pyInt ((n:ℚ)) = n := by
  unfold pyInt
  rw [if_neg (not_lt.mpr (by exact_mod_cast h0))]
  have hfl : Rat.floor ((n:ℚ)) = Int.floor ((n:ℚ)) := (Rat.floor_def' _).trans Rat.floor_def.symm
  rw [hfl, Int.floor_intCast]

theorem steps_and_floor_eval (d : ℚ) (n : ℤ) (h0 : 0 ≤ n) (hd : d / DEGREES_PER_STEP = (n:ℚ)) :
    (steps_and_floor d).2 = n := by
  unfold steps_and_floor
  rw [hd, pyInt_intCast n h0]

/-- C5 counterexample: rotation degrees exactly 360 lie outside the claimed
half-open range [0, 360), yet the sample is accepted (the source validation
bound is the closed `0 <= degrees <= 360`) and 200 rotation step commands
are issued instead of the process terminating. -/
theorem validate_rotation_boundary_counterexample :
    ((0:ℚ) ≤ 360 ∧ ¬ ((360:ℚ) < 360))
    ∧ sample_step ⟨0, 360⟩ 0 0 = Except.ok ([], List.replicate 200 true, 0, 200) := by
  refine ⟨⟨by norm_num, by norm_num⟩, ?_⟩
  have hvo : validate_orbit_degrees (0:ℚ) = Except.ok () := by
    unfold validate_orbit_degrees
    rw [if_pos (by norm_num)]
  have hvr : validate_rotation_degrees (360:ℚ) = Except.ok () := by
    unfold validate_rotation_degrees
    rw [if_pos (by norm_num)]
  have hs0 : (steps_and_floor (0:ℚ)).2 = 0 :=
    steps_and_floor_eval 0 0 (by norm_num) (by norm_num)
  have hs360 : (steps_and_floor (360:ℚ)).2 = 200 :=
    steps_and_floor_eval 360 200 (by norm_num)
      (by rw [DEGREES_PER_STEP, STEPS_PER_REV]; norm_num)
  unfold sample_step
  rw [show ((⟨0, 360⟩ : EarthModel).orbit_degrees) = (0:ℚ) from rfl,
      show ((⟨0, 360⟩ : EarthModel).rotation_degrees) = (360:ℚ) from rfl, hvo, hvr, hs0, hs360]
  dsimp only
  have horb : orbit_axis_update 0 0 = [] := by
    unfold orbit_axis_update
    rw [if_neg (by decide)]
  have hrot : rotation_axis_update 0 200 = List.replicate 200 true := by
    unfold rotation_axis_update rotation_step_delta take_steps
    dsimp only
    rw [if_pos (by decide), if_neg (by decide)]
    norm_num
    decide
  rw [horb, hrot]

/-- C5 (amended): a sampled value with orbit degrees outside the closed
interval [0, 180] or rotation degrees outside the closed interval [0, 360]
makes the sample processing exit with code 1 and no step command is issued;
rotation degrees exactly 360 (the only point of [0, 360] outside the claimed
half-open range) passes validation instead. -/
theorem out_of_range_fatal (em : EarthModel) (orbit_floor rotation_floor : ℤ)
    (hbad : ¬ (0 ≤ em.orbit_degrees ∧ em.orbit_degrees ≤ 180)
          ∨ ¬ (0 ≤ em.rotation_degrees ∧ em.rotation_degrees ≤ 360)) :
    sample_step em orbit_floor rotation_floor = Except.error 1
    ∧ ∀ cmds, sample_step em orbit_floor rotation_floor ≠ Except.ok cmds := by
  have hmain : sample_step em orbit_floor rotation_floor = Except.error 1 := by
    unfold sample_step validate_orbit_degrees validate_rotation_degrees
    rcases hbad with hb | hb
    · rw [if_neg hb]
    · by_cases h1 : 0 ≤ em.orbit_degrees ∧ em.orbit_degrees ≤ 180
      · rw [if_pos h1, if_neg hb]
      · rw [if_neg h1]
  refine ⟨hmain, fun cmds h => ?_⟩
  rw [hmain] at h
  cases h

/-- C5 witness: orbit degrees -1 are rejected with exit code 1. -/
theorem out_of_range_fatal_witness :
    (¬ (0 ≤ (-1:ℚ) ∧ (-1:ℚ) ≤ 180) ∨ ¬ (0 ≤ (0:ℚ) ∧ (0:ℚ) ≤ 360))
    ∧ sample_step ⟨-1, 0⟩ 0 0 = Except.error 1 := by
  have hbad : ¬ (0 ≤ (-1:ℚ) ∧ (-1:ℚ) ≤ 180) := by norm_num
  exact ⟨Or.inl hbad, (out_of_range_fatal ⟨-1, 0⟩ 0 0 (Or.inl hbad)).1⟩

/-- C4 counterexample: with the orbit-axis sensor stuck at `true`, BACK_OFF
exhausts its 50-step budget and `scan` reports failure, yet startup still
issues the absolute positioning moves (the source discards the `scan`
results), so the failure is not surfaced as fatal before absolute
positioning. -/
theorem calibration_not_fatal_counterexample :
    (scan false (fun _ => true) 0 100 50).1 = false
    ∧ main_startup (fun _ => true) (fun _ => true) ⟨90, 180⟩ =
        Except.ok (List.replicate 50 true, List.replicate 100 true) := by
  constructor
  · decide
  · have hvo : validate_orbit_degrees (90:ℚ) = Except.ok () := by
      unfold validate_orbit_degrees
      rw [if_pos (by norm_num)]
    have hvr : validate_rotation_degrees (180:ℚ) = Except.ok () := by
      unfold validate_rotation_degrees
      rw [if_pos (by norm_num)]
    have hs90 : (steps_and_floor (90:ℚ)).2 = 50 :=
      steps_and_floor_eval 90 50 (by norm_num)
        (by rw [DEGREES_PER_STEP, STEPS_PER_REV]; norm_num)
    have hs180 : (steps_and_floor (180:ℚ)).2 = 100 :=
      steps_and_floor_eval 180 100 (by norm_num)
        (by rw [DEGREES_PER_STEP, STEPS_PER_REV]; norm_num)
    unfold main_startup
    rw [show ((⟨90, 180⟩ : EarthModel).orbit_degrees) = (90:ℚ) from rfl,
        show ((⟨90, 180⟩ : EarthModel).rotation_degrees) = (180:ℚ) from rfl,
        hvo, hvr, hs90, hs180]
    dsimp only
    unfold take_steps
    rw [show Int.toNat 50 = 50 from rfl, show Int.toNat 100 = 100 from rfl]

/-- C4 (amended): `scan` runs BACK_OFF, SEEK, CLEAR, CENTER in that order,
aborting immediately with a failure result when one of the first three
phases exhausts its budget (the phase trace is a proper prefix exactly on
failure); on success CENTER steps back opposite the scan direction by half
the CLEAR step count; the caller `main`, however, ignores the scan results,
so startup behaves identically whatever the sensors report. -/
theorem scan_phases_order (forward : Bool) (sensor : ℤ → Bool) (pos : ℤ)
    (max_scan_steps max_sensor_steps : ℕ) :
    ((scan forward sensor pos max_scan_steps max_sensor_steps).2.2 ∈
        [[Phase.BACK_OFF], [Phase.BACK_OFF, Phase.SEEK],
         [Phase.BACK_OFF, Phase.SEEK, Phase.CLEAR],
         [Phase.BACK_OFF, Phase.SEEK, Phase.CLEAR, Phase.CENTER]])
    ∧ ((scan forward sensor pos max_scan_steps max_sensor_steps).1 = true ↔
        (scan forward sensor pos max_scan_steps max_sensor_steps).2.2 =
          [Phase.BACK_OFF, Phase.SEEK, Phase.CLEAR, Phase.CENTER])
    ∧ (∀ (s1 : ℕ) (p1 : ℤ) (s2 : ℕ) (p2 : ℤ) (s3 : ℕ) (p3 : ℤ),
        step_while_over_sensor (!forward) sensor pos max_sensor_steps = (true, s1, p1) →
        step_until_over_sensor forward sensor p1 max_scan_steps = (true, s2, p2) →
        step_while_over_sensor forward sensor p2 max_sensor_steps = (true, s3, p3) →
        scan forward sensor pos max_scan_steps max_sensor_steps =
          (true, take_steps_pos (!forward) p3 (s3 / 2),
           [Phase.BACK_OFF, Phase.SEEK, Phase.CLEAR, Phase.CENTER]))
    ∧ (∀ (sensor0 sensor1 sensor0b sensor1b : ℤ → Bool) (em : EarthModel),
        main_startup sensor0 sensor1 em = main_startup sensor0b sensor1b em) := by
  refine ⟨?_, ?_, ?_, ?_⟩
  · unfold scan
    dsimp only
    split
    · simp
    · split
      · simp
      · split
        · simp
        · simp
  · unfold scan
    dsimp only
    split
    · simp
    · split
      · simp
      · split
        · simp
        · simp
  · intro s1 p1 s2 p2 s3 p3 h1 h2 h3
    simp [scan, h1, h2, h3]
  · intro sensor0 sensor1 sensor0b sensor1b em
    rfl

/-- C4 witness: a sensor sensed on positions 0 to 3 drives a full successful
calibration of the forward-scanned axis, ending centered at position 2. -/
theorem scan_phases_order_witness :
    step_while_over_sensor (!true) sampleSensor 0 50 = (true, 1, -1)
    ∧ step_until_over_sensor true sampleSensor (-1) 100 = (true, 1, 0)
    ∧ step_while_over_sensor true sampleSensor 0 50 = (true, 4, 4)
    ∧ scan true sampleSensor 0 100 50 =
        (true, 2, [Phase.BACK_OFF, Phase.SEEK, Phase.CLEAR, Phase.CENTER]) := by
  refine ⟨by decide, by decide, by decide, ?_⟩
  have h := (scan_phases_order true sampleSensor 0 100 50).2.2.1 1 (-1) 1 0 4 4
    (by decide) (by decide) (by decide)
  rw [h]
  decide

end EarthMotion

namespace Earth

theorem noon_nadir_get? (rs : List (EventTime Bool)) (n : ℕ) (x y : EventTime Bool)
    (hx : rs.get? n = some x) (hy : rs.get? (n + 1) = some y) :
    (noon_nadir_event_times rs).get? n = some
      ⟨⟨x.event.value, if x.event.value then "Solor noon" else "Nadir"⟩,
        x.time + (y.time - x.time) / 2⟩ := by
  unfold noon_nadir_event_times
  rw [List.get?_map]
  have hz : (rs.zip rs.tail).get? n = some (x, y) := by
    rw [List.get?_zip_eq_some]
    refine ⟨hx, ?_⟩
    rw [← List.drop_one, List.get?_drop]
    simpa [Nat.add_comm] using hy
  rw [hz]
  rfl

/-- C8 (amended): for every nonempty rise/set sequence,
`noon_nadir_event_times` has exactly one fewer element, and its n-th event
is at the temporal midpoint of the n-th and (n+1)-th input events, labelled
solar noon when the first of the pair is a sunrise and nadir otherwise,
carrying that event's boolean tag. -/
theorem noon_nadir_midpoints (rs : List (EventTime Bool)) :
    (rs ≠ [] → (noon_nadir_event_times rs).length + 1 = rs.length)
    ∧ (∀ (n : ℕ) (x y : EventTime Bool), rs.get? n = some x → rs.get? (n + 1) = some y →
        (noon_nadir_event_times rs).get? n = some
          ⟨⟨x.event.value, if x.event.value then "Solor noon" else "Nadir"⟩,
            (x.time + y.time) / 2⟩) := by
  constructor
  · intro hne
    unfold noon_nadir_event_times
    rw [List.length_map, List.length_zip, List.length_tail]
    cases rs with
    | nil => exact absurd rfl hne
    | cons a l =>
      simp
  · intro n x y hx hy
    rw [noon_nadir_get? rs n x y hx hy]
    have hmid : x.time + (y.time - x.time) / 2 = (x.time + y.time) / 2 := by ring
    rw [hmid]

/-- C8 counterexample: for the empty rise/set sequence (a window containing
no events) the output is also empty, which is not one element fewer than the
input. -/
theorem noon_nadir_empty_counterexample :
    noon_nadir_event_times [] = []
    ∧ ¬ ((noon_nadir_event_times []).length + 1 = ([] : List (EventTime Bool)).length) :=
  ⟨rfl, by decide⟩

/-- C8 witness: a 3-event rise/set sequence yields 2 noon/nadir events, the
first being solar noon at the midpoint time 5 of sunrise 0 and sunset 10. -/
theorem noon_nadir_midpoints_witness :
    sampleRiseSet ≠ []
    ∧ (noon_nadir_event_times sampleRiseSet).length + 1 = sampleRiseSet.length
    ∧ (noon_nadir_event_times sampleRiseSet).get? 0 = some ⟨⟨true, "Solor noon"⟩, 5⟩ := by
  have h := noon_nadir_midpoints sampleRiseSet
  refine ⟨by decide, h.1 (by decide), ?_⟩
  have h2 := h.2 0 ⟨⟨true, "Sunrise"⟩, 0⟩ ⟨⟨false, "Sunset"⟩, 10⟩ (by decide) (by decide)
  rw [h2]
  norm_num

end Earth
